import Mathlib

/-!
Shallow embedding of the response-extraction engine of the `ytmusicapi-rs`
repository: the JSON path navigator (`src/nav.rs`), the entity parsers
(`src/parsers/track.rs`, `src/parsers/playlist.rs`) and the continuation-token
pagination driver (`src/client.rs`).

Modelling conventions:
* `serde_json::Value` becomes the inductive `Json` below; object field lookup
  returns the first binding of a key (serde maps have unique keys).
* Rust `&str` values are kept as Lean `String`s in the data model; character
  level work (`trim`, `split`, `parse::<u32>`, `contains`, `to_lowercase`)
  is modelled structurally on `List Char` (`String.data`), with the whitespace
  class covering the ASCII part of Rust's definition.
* `u32` values are modelled as `Nat`; overflow of the unchecked `u32`
  arithmetic inside `parse_duration` is tracked by the explicit predicate
  `durationPanics` (debug builds panic there, release builds wrap), and the
  track-duration summation wraps modulo `2^32` as Rust release arithmetic does.
* The asynchronous transport (`send_request`) is abstracted by an oracle:
  the pagination driver receives a function from continuation token to the
  transport result, and `get_playlist` additionally receives the result of
  its initial browse request.  The unbounded `while` loop of
  `fetch_playlist_continuations` is modelled with a fuel parameter set to
  `max_items + 1`; the fuel-adequacy theorem proved below shows the loop in
  the source never runs more iterations than that, so the model is exact.
-/

namespace YTM

/-- JSON values as parsed by serde_json (numbers restricted to integers,
which is all the modelled code paths inspect). -/
inductive Json where
  | null : Json
  | bool (b : Bool) : Json
  | num (n : Int) : Json
  | str (s : String) : Json
  | arr (items : List Json) : Json
  | obj (fields : List (String × Json)) : Json

/-- Rust `Value::get(key)`: field lookup on an object, `None` otherwise. -/
def Json.getKey : Json → String → Option Json
  | .obj fields, k => (fields.find? (fun p => p.1 == k)).map (·.2)
  | _, _ => none

/-- Rust `Value::get(index)`: element lookup on an array, `None` otherwise. -/
def Json.getIdx : Json → Nat → Option Json
  | .arr items, i => items.get? i
  | _, _ => none

/-- Rust `Value::as_str`. -/
def Json.asStr : Json → Option String
  | .str s => some s
  | _ => none

/-- Rust `Value::as_array`. -/
def Json.asArr : Json → Option (List Json)
  | .arr items => some items
  | _ => none

/-- Rust `Value::as_u64` (on the integer-valued numbers we model). -/
def Json.asU64 : Json → Option Nat
  | .num n => if 0 ≤ n ∧ n < 18446744073709551616 then some n.toNat else none
  | _ => none

/-- One segment of a navigation path (`nav::PathSegment`). -/
inductive PathSeg where
  | key (s : String) : PathSeg
  | idx (n : Nat) : PathSeg

/-- `nav::nav`: walk a JSON value through a path, failing as soon as a step
does not resolve; the empty path returns the root. -/
def nav (root : Json) : List PathSeg → Option Json
  | [] => some root
  | .key k :: rest => match root.getKey k with
    | some v => nav v rest
    | none => none
  | .idx i :: rest => match root.getIdx i with
    | some v => nav v rest
    | none => none

/-- `nav::nav_str`. -/
def nav_str (root : Json) (path : List PathSeg) : Option String :=
  (nav root path).bind Json.asStr

/-- `nav::nav_array`. -/
def nav_array (root : Json) (path : List PathSeg) : Option (List Json) :=
  (nav root path).bind Json.asArr

/-! Path catalog (`src/parsers/navigation.rs`), restricted to the constants
the modelled parsers use. -/

/-- `paths::TAB_CONTENT`. -/
def TAB_CONTENT : List PathSeg :=
  [.key "tabs", .idx 0, .key "tabRenderer", .key "content"]

/-- `paths::TWO_COLUMN_RENDERER`. -/
def TWO_COLUMN_RENDERER : List PathSeg :=
  [.key "contents", .key "twoColumnBrowseResultsRenderer"]

/-- `paths::MENU_ITEMS`. -/
def MENU_ITEMS : List PathSeg :=
  [.key "menu", .key "menuRenderer", .key "items"]

/-- `paths::THUMBNAIL`. -/
def THUMBNAIL : List PathSeg :=
  [.key "thumbnail", .key "thumbnails"]

/-- `paths::THUMBNAILS`. -/
def THUMBNAILS : List PathSeg :=
  [.key "thumbnail", .key "musicThumbnailRenderer", .key "thumbnail",
   .key "thumbnails"]

/-- `paths::TITLE_TEXT`. -/
def TITLE_TEXT : List PathSeg :=
  [.key "title", .key "runs", .idx 0, .key "text"]

/-- `paths::RESPONSIVE_HEADER`. -/
def RESPONSIVE_HEADER : List PathSeg :=
  [.key "musicResponsiveHeaderRenderer"]

/-- `paths::EDITABLE_PLAYLIST_DETAIL_HEADER`. -/
def EDITABLE_PLAYLIST_DETAIL_HEADER : List PathSeg :=
  [.key "musicEditablePlaylistDetailHeaderRenderer"]

/-- `paths::BADGE_LABEL`. -/
def BADGE_LABEL : List PathSeg :=
  [.key "badges", .idx 0, .key "musicInlineBadgeRenderer",
   .key "accessibilityData", .key "accessibilityData", .key "label"]

/-- `paths::CONTINUATION_TOKEN`. -/
def CONTINUATION_TOKEN : List PathSeg :=
  [.key "continuationItemRenderer", .key "continuationEndpoint",
   .key "continuationCommand", .key "token"]

/-! Character-level string helpers (faithful translations of the `str`
methods used by the parsers). -/

/-- Whitespace test used by `str::trim` / `split_whitespace`, covering the
ASCII range of Rust's Unicode whitespace class (all inputs appearing in the
modelled responses are ASCII). -/
def rustIsWS (c : Char) : Bool :=
  c = ' ' || c = '\t' || c = '\n' || c = '\x0b' || c = '\x0c' || c = '\r'

/-- Rust `str::trim` on the character list of a string. -/
def trimL (l : List Char) : List Char :=
  ((l.dropWhile rustIsWS).reverse.dropWhile rustIsWS).reverse

/-- Rust `str::split(c)`: split at every occurrence of `c`, keeping empty
pieces; the empty input yields one empty piece. -/
def splitChar (c : Char) : List Char → List (List Char)
  | [] => [[]]
  | x :: xs =>
    if x = c then [] :: splitChar c xs
    else match splitChar c xs with
      | [] => [[x]]
      | piece :: rest => (x :: piece) :: rest

/-- Largest `u32` value. -/
def u32Max : Nat := 4294967295

/-- Rust `str::parse::<u32>`: an optional leading `+`, then one or more ASCII
digits, rejecting values above `u32::MAX`. -/
def parseU32 (l : List Char) : Option Nat :=
  let digits := match l with
    | '+' :: rest => rest
    | other => other
  if digits = [] then none
  else if digits.all (fun c => c.isDigit) then
    let n := digits.foldl (fun acc c => acc * 10 + (c.toNat - 48)) 0
    if n ≤ u32Max then some n else none
  else none

/-- Positional multiplier of `parse_duration` (`None` past the third
segment, where the source returns early). -/
def durMultiplier : Nat → Option Nat
  | 0 => some 1
  | 1 => some 60
  | 2 => some 3600
  | _ => none

/-- Accumulating loop of `parse_duration` over the reversed segment list,
with ideal (non-wrapping) arithmetic: it agrees with the source exactly
when no step overflows `u32` (`durPanicGo` is `false` there); the
release-build wrapping accumulation is `durGoWrap` below. -/
def durGo : List (List Char) → Nat → Nat → Option Nat
  | [], _, acc => some acc
  | p :: rest, i, acc =>
    match parseU32 p with
    | none => none
    | some v =>
      match durMultiplier i with
      | none => none
      | some m => durGo rest (i + 1) (acc + v * m)

/-- `parsers::track::parse_duration`: a trimmed, colon-split duration string
read right-to-left as seconds, minutes, hours.  The accumulation is ideal
(non-wrapping), so the result agrees with the source exactly when
`durationPanics` is `false` — no `u32` overflow; the release-build wrapping
result is `parse_duration_wrap`. -/
def parse_duration (s : String) : Option Nat :=
  let d := trimL s.data
  if d = [] then none
  else durGo (splitChar ':' d).reverse 0 0

/-- Wrapping variant of the accumulation loop: the release-build semantics
of the unchecked `u32` `seconds += value * multiplier`, every operation
taken modulo `2^32` (a debug build panics at the first step where
`durPanicGo` reports an overflow). -/
def durGoWrap : List (List Char) → Nat → Nat → Option Nat
  | [], _, acc => some acc
  | p :: rest, i, acc =>
    match parseU32 p with
    | none => none
    | some v =>
      match durMultiplier i with
      | none => none
      | some m => durGoWrap rest (i + 1) ((acc + (v * m) % 4294967296) % 4294967296)

/-- `parse_duration` under release-build semantics: the same control flow,
with the `u32` accumulation wrapping modulo `2^32`. -/
def parse_duration_wrap (s : String) : Option Nat :=
  let d := trimL s.data
  if d = [] then none
  else durGoWrap (splitChar ':' d).reverse 0 0

/-- Overflow tracker for the unchecked `u32` arithmetic of `parse_duration`:
`true` exactly when `value * multiplier` or `seconds + value * multiplier`
exceeds `u32::MAX` before the function returns (a debug-build panic, a
release-build wraparound). -/
def durPanicGo : List (List Char) → Nat → Nat → Bool
  | [], _, _ => false
  | p :: rest, i, acc =>
    match parseU32 p with
    | none => false
    | some v =>
      match durMultiplier i with
      | none => false
      | some m =>
        if u32Max < v * m ∨ u32Max < acc + v * m then true
        else durPanicGo rest (i + 1) (acc + v * m)

/-- Whether evaluating `parse_duration` on `s` overflows its `u32`
arithmetic. -/
def durationPanics (s : String) : Bool :=
  let d := trimL s.data
  if d = [] then false
  else durPanicGo (splitChar ':' d).reverse 0 0

/-! Data model (`src/types`). -/

/-- `types::common::Artist`. -/
structure Artist where
  name : String
  id : Option String
deriving DecidableEq

/-- `types::common::Album`. -/
structure Album where
  name : String
  id : Option String
deriving DecidableEq

/-- `types::common::Author`. -/
structure Author where
  name : String
  id : Option String
deriving DecidableEq

/-- `types::common::Thumbnail`. -/
structure Thumbnail where
  url : String
  width : Option Nat
  height : Option Nat
deriving DecidableEq

/-- `types::playlist::Privacy`. -/
inductive Privacy where
  | Public : Privacy
  | Private : Privacy
  | Unlisted : Privacy
deriving DecidableEq

/-- Rust `char::to_uppercase` restricted to ASCII, which is all
`Privacy::from` compares against. -/
def upperL (l : List Char) : List Char := l.map Char.toUpper

/-- `impl From<&str> for Privacy`: uppercase, then match the three known
variants, defaulting to `Public`. -/
def privacyFromStr (s : String) : Privacy :=
  let u := upperL s.data
  if u = "PUBLIC".data then .Public
  else if u = "PRIVATE".data then .Private
  else if u = "UNLISTED".data then .Unlisted
  else .Public

/-- `types::playlist::PlaylistTrack`. -/
structure PlaylistTrack where
  video_id : Option String
  title : Option String
  artists : List Artist
  album : Option Album
  duration : Option String
  duration_seconds : Option Nat
  thumbnails : List Thumbnail
  is_available : Bool
  is_explicit : Bool
  set_video_id : Option String
  video_type : Option String
deriving DecidableEq

/-- `impl Default for PlaylistTrack`. -/
def defaultTrack : PlaylistTrack :=
  { video_id := none, title := none, artists := [], album := none,
    duration := none, duration_seconds := none, thumbnails := [],
    is_available := true, is_explicit := false, set_video_id := none,
    video_type := none }

/-- `types::playlist::Playlist`. -/
structure Playlist where
  id : String
  title : String
  description : Option String
  privacy : Privacy
  thumbnails : List Thumbnail
  author : Option Author
  year : Option String
  duration : Option String
  duration_seconds : Option Nat
  track_count : Option Nat
  owned : Bool
  tracks : List PlaylistTrack
deriving DecidableEq

/-- `impl Default for Playlist`. -/
def defaultPlaylist : Playlist :=
  { id := "", title := "", description := none, privacy := .Public,
    thumbnails := [], author := none, year := none, duration := none,
    duration_seconds := none, track_count := none, owned := false,
    tracks := [] }

/-- Rust `str::trim_start_matches("VL")`: repeatedly strip a leading
`"VL"`. -/
def stripVL : List Char → List Char
  | 'V' :: 'L' :: rest => stripVL rest
  | l => l

/-! Track parsers (`src/parsers/track.rs`). -/

/-- `track::get_flex_column_item`. -/
def get_flex_column_item (data : Json) (index : Nat) : Option Json := do
  let columns ← (data.getKey "flexColumns").bind Json.asArr
  let column ← columns.get? index
  let renderer ← column.getKey "musicResponsiveListItemFlexColumnRenderer"
  let text ← renderer.getKey "text"
  if (text.getKey "runs").isSome then some renderer else none

/-- `track::get_fixed_column_item`. -/
def get_fixed_column_item (data : Json) (index : Nat) : Option Json := do
  let columns ← (data.getKey "fixedColumns").bind Json.asArr
  let column ← columns.get? index
  column.getKey "musicResponsiveListItemFixedColumnRenderer"

/-- `track::get_item_text`. -/
def get_item_text (item : Json) (index : Nat) : Option String := do
  let column ← get_flex_column_item item index
  nav_str column [.key "text", .key "runs", .idx 0, .key "text"]

/-- Browse-id path read for each artist run. -/
def ARTIST_BROWSE_ID : List PathSeg :=
  [.key "navigationEndpoint", .key "browseEndpoint", .key "browseId"]

/-- Artist built from one kept run of `parse_artist_runs`: the run's `text`
string (skipped when absent) plus an optional browse id. -/
def artistOfRun (run : Json) : Option Artist :=
  match (run.getKey "text").bind Json.asStr with
  | none => none
  | some name => some { name := name, id := nav_str run ARTIST_BROWSE_ID }

/-- `track::parse_artist_runs`: visit the runs with `step_by(2)` (indices
0, 2, 4, …), keeping each visited run that carries a text. -/
def parse_artist_runs : List Json → List Artist
  | [] => []
  | [run] => (artistOfRun run).toList
  | run :: _ :: rest => (artistOfRun run).toList ++ parse_artist_runs rest

/-- `track::parse_song_artists`. -/
def parse_song_artists (data : Json) (index : Nat) : List Artist :=
  match get_flex_column_item data index with
  | none => []
  | some flex =>
    match nav flex [.key "text", .key "runs"] with
    | some (.arr runs) => parse_artist_runs runs
    | _ => []

/-- `track::parse_song_album`. -/
def parse_song_album (data : Json) (index : Nat) : Option Album := do
  let flex ← get_flex_column_item data index
  let name ← nav_str flex [.key "text", .key "runs", .idx 0, .key "text"]
  some { name := name,
         id := nav_str flex [.key "text", .key "runs", .idx 0,
                             .key "navigationEndpoint", .key "browseEndpoint",
                             .key "browseId"] }

/-! Playlist parsers (`src/parsers/playlist.rs`). -/

/-- `playlist::parse_thumbnails`. -/
def parse_thumbnails (data : Json) : List Thumbnail :=
  match (nav_array data THUMBNAILS).orElse (fun _ => nav_array data THUMBNAIL) with
  | none => []
  | some thumbs =>
    thumbs.filterMap fun t => do
      let url ← (t.getKey "url").bind Json.asStr
      some { url := url,
             width := ((t.getKey "width").bind Json.asU64).map (· % 4294967296),
             height := ((t.getKey "height").bind Json.asU64).map (· % 4294967296) }

/-- Rust `split_whitespace().next()`: the first maximal non-whitespace
chunk, or `None` when the text is all whitespace. -/
def firstToken (l : List Char) : Option (List Char) :=
  match l.dropWhile rustIsWS with
  | [] => none
  | t => some (t.takeWhile (fun c => !rustIsWS c))

/-- Rust `char::to_lowercase` restricted to ASCII, which covers every
keyword (`song`, `track`, `hour`, `minute`) the meta parser matches. -/
def lowerL (l : List Char) : List Char := l.map Char.toLower

/-- Rust `str::contains(pat)` (substring search). -/
def hasSubstr (hay pat : List Char) : Bool :=
  if pat.isPrefixOf hay then true
  else match hay with
    | [] => false
    | _ :: t => hasSubstr t pat

/-- Whether a second-subtitle run's lowercased text mentions songs or
tracks. -/
def hasSongTrack (text : String) : Bool :=
  hasSubstr (lowerL text.data) "song".data || hasSubstr (lowerL text.data) "track".data

/-- Whether a second-subtitle run's lowercased text mentions hours or
minutes. -/
def hasHourMinute (text : String) : Bool :=
  hasSubstr (lowerL text.data) "hour".data || hasSubstr (lowerL text.data) "minute".data

/-- Leading integer of a run text: first whitespace token, commas stripped,
parsed as `u32`. -/
def leadingCount (text : String) : Option Nat :=
  (firstToken text.data).bind fun tok => parseU32 (tok.filter (fun c => c != ','))

/-- Body of the `for run in runs` loop of
`playlist::parse_playlist_meta_from_runs`: the `song`/`track` branch is
tried first, and the `hour`/`minute` branch only when it did not match. -/
def metaStep (p : Playlist) (run : Json) : Playlist :=
  match (run.getKey "text").bind Json.asStr with
  | none => p
  | some text =>
    if hasSongTrack text then
      match leadingCount text with
      | some count => { p with track_count := some count }
      | none => p
    else if hasHourMinute text then { p with duration := some text }
    else p

/-- `playlist::parse_playlist_meta_from_runs`. -/
def parse_playlist_meta_from_runs (runs : List Json) (p : Playlist) : Playlist :=
  runs.foldl metaStep p

/-- Video-id path behind the play button of a track row. -/
def PLAY_VIDEO_ID : List PathSeg :=
  [.key "overlay", .key "musicItemThumbnailOverlayRenderer", .key "content",
   .key "musicPlayButtonRenderer", .key "playNavigationEndpoint",
   .key "watchEndpoint", .key "videoId"]

/-- Video-type path of a track row. -/
def VIDEO_TYPE_PATH : List PathSeg :=
  [.key "menu", .key "menuRenderer", .key "items", .idx 0,
   .key "menuNavigationItemRenderer", .key "navigationEndpoint",
   .key "watchEndpoint", .key "watchEndpointMusicSupportedConfigs",
   .key "watchEndpointMusicConfig", .key "musicVideoType"]

/-- Body of the menu-items loop of `playlist::parse_playlist_track`: the
accumulator carries `(set_video_id, video_id)`; each service endpoint may
overwrite `set_video_id` and fill a still-absent `video_id`. -/
def menuStep (acc : Option String × Option String) (menuItem : Json) :
    Option String × Option String :=
  match nav menuItem [.key "menuServiceItemRenderer", .key "serviceEndpoint"] with
  | none => acc
  | some service =>
    let svid := match nav_str service [.key "playlistEditEndpoint",
                    .key "actions", .idx 0, .key "setVideoId"] with
      | some sv => some sv
      | none => acc.1
    let vid := match acc.2 with
      | some v => some v
      | none => nav_str service [.key "playlistEditEndpoint", .key "actions",
                                 .idx 0, .key "removedVideoId"]
    (svid, vid)

/-- `playlist::parse_playlist_track` on the inner
`musicResponsiveListItemRenderer` value. -/
def parseTrackData (data : Json) : Option PlaylistTrack :=
  let vid0 := nav_str data PLAY_VIDEO_ID
  let menuIds := match nav_array data MENU_ITEMS with
    | some items => items.foldl menuStep (none, vid0)
    | none => (none, vid0)
  match (data.getKey "flexColumns").bind Json.asArr with
  | none => none
  | some flexCols =>
    let title := get_item_text data 0
    if title = some "Song deleted" then none
    else
      let durPair : Option String × Option Nat :=
        match get_fixed_column_item data 0 with
        | some fixed =>
          match (nav_str fixed [.key "text", .key "simpleText"]).orElse
              (fun _ => nav_str fixed [.key "text", .key "runs", .idx 0, .key "text"]) with
          | some dur => (some dur, parse_duration dur)
          | none => (none, none)
        | none => (none, none)
      let avail := match (data.getKey "musicItemRendererDisplayPolicy").bind Json.asStr with
        | some policy => policy != "MUSIC_ITEM_RENDERER_DISPLAY_POLICY_GREY_OUT"
        | none => true
      some { video_id := menuIds.2,
             title := title,
             artists := parse_song_artists data 1,
             album := (List.range' 2 (flexCols.length - 2)).findSome?
               (parse_song_album data),
             duration := durPair.1,
             duration_seconds := durPair.2,
             thumbnails := parse_thumbnails data,
             is_available := avail,
             is_explicit := (nav data BADGE_LABEL).isSome,
             set_video_id := menuIds.1,
             video_type := nav_str data VIDEO_TYPE_PATH }

/-- `playlist::parse_playlist_track`: rows without the
`musicResponsiveListItemRenderer` wrapper are skipped. -/
def parse_playlist_track (item : Json) : Option PlaylistTrack :=
  (item.getKey "musicResponsiveListItemRenderer").bind parseTrackData

/-- `playlist::parse_playlist_tracks`. -/
def parse_playlist_tracks (contents : List Json) : List PlaylistTrack :=
  contents.filterMap parse_playlist_track

/-- `playlist::get_continuation_token`. -/
def get_continuation_token (results : Json) : Option String := do
  let contents ← (results.getKey "contents").bind Json.asArr
  let last ← contents.getLast?
  nav_str last CONTINUATION_TOKEN

/-- Section-list item holding the playlist header
(`path!["sectionListRenderer", "contents", 0]`). -/
def SECTION_LIST_ITEM : List PathSeg :=
  [.key "sectionListRenderer", .key "contents", .idx 0]

/-- Privacy field inside the editable header. -/
def EDIT_HEADER_PRIVACY : List PathSeg :=
  [.key "editHeader", .key "musicPlaylistEditHeaderRenderer", .key "privacy"]

/-- Responsive header nested inside the editable header. -/
def EDITABLE_RESPONSIVE_HEADER : List PathSeg :=
  [.key "header", .key "musicResponsiveHeaderRenderer"]

/-- Description path of the playlist header. -/
def PLAYLIST_DESCRIPTION : List PathSeg :=
  [.key "description", .key "musicDescriptionShelfRenderer", .key "description",
   .key "runs", .idx 0, .key "text"]

/-- Author name path in the header facepile. -/
def FACEPILE_NAME : List PathSeg :=
  [.key "facepile", .key "avatarStackViewModel", .key "text", .key "content"]

/-- Author browse-id path in the header facepile. -/
def FACEPILE_ID : List PathSeg :=
  [.key "facepile", .key "avatarStackViewModel", .key "rendererContext",
   .key "commandContext", .key "onTap", .key "innertubeCommand",
   .key "browseEndpoint", .key "browseId"]

/-- Header block of `playlist::parse_playlist_response`: title, thumbnails,
description, author and second-subtitle metadata. -/
def applyHeaderMeta (header : Json) (p : Playlist) : Playlist :=
  let p := { p with title := (nav_str header TITLE_TEXT).getD "" }
  let p := { p with thumbnails := parse_thumbnails header }
  let p := { p with description := nav_str header PLAYLIST_DESCRIPTION }
  let p := match nav_str header FACEPILE_NAME with
    | some authorName =>
      { p with author := some ⟨authorName, nav_str header FACEPILE_ID⟩ }
    | none => p
  match nav header [.key "secondSubtitle", .key "runs"] with
  | some (.arr runs) => parse_playlist_meta_from_runs runs p
  | _ => p

/-- Wrapping `u32` sum of the present per-track `duration_seconds` values
(`.filter_map(|t| t.duration_seconds).sum::<u32>()`). -/
def trackDurationSum (tracks : List PlaylistTrack) : Nat :=
  (tracks.filterMap (fun t => t.duration_seconds)).foldl
    (fun acc v => (acc + v) % 4294967296) 0

/-- Track block of `playlist::parse_playlist_response` (the secondary
contents shelf) followed by the final total-duration computation. -/
def finishPlaylist (two_col : Json) (pp : Playlist) : Playlist :=
  let pt := match nav two_col [.key "secondaryContents",
      .key "sectionListRenderer", .key "contents", .idx 0] with
    | some secondary =>
      match nav secondary [.key "musicPlaylistShelfRenderer", .key "contents"] with
      | some (.arr contents) => { pp with tracks := parse_playlist_tracks contents }
      | _ => pp
    | none => pp
  { pt with duration_seconds := some (trackDurationSum pt.tracks) }

/-- `playlist::parse_playlist_response`.  The three leading navigation
failures return the default playlist early (skipping the duration
summation), exactly as the `return playlist` statements in the source do. -/
def parse_playlist_response (response : Json) (playlist_id : String) : Playlist :=
  let base := { defaultPlaylist with id := String.mk (stripVL playlist_id.data) }
  match nav response TWO_COLUMN_RENDERER with
  | none => base
  | some two_col =>
    match nav two_col TAB_CONTENT with
    | none => base
    | some tab_content =>
      match nav tab_content SECTION_LIST_ITEM with
      | none => base
      | some sectionListItem =>
        let pp := match nav sectionListItem EDITABLE_PLAYLIST_DETAIL_HEADER with
          | some editable =>
            let priv := match nav_str editable EDIT_HEADER_PRIVACY with
              | some s => privacyFromStr s
              | none => Privacy.Private
            let p1 := { base with owned := true, privacy := priv }
            match nav editable EDITABLE_RESPONSIVE_HEADER with
            | some header => applyHeaderMeta header p1
            | none => p1
          | none =>
            let p1 := { base with owned := false, privacy := Privacy.Public }
            match nav sectionListItem RESPONSIVE_HEADER with
            | some header => applyHeaderMeta header p1
            | none => p1
        finishPlaylist two_col pp

/-! Pagination driver (`src/client.rs`).  The HTTP transport is out of
scope (spec section 6); it is abstracted as an oracle mapping each
continuation token to the transport outcome of the corresponding
continuation-only browse request. -/

/-- Error kinds surfaced by the client (`src/error.rs`, restricted to the
kinds the modelled paths can produce). -/
inductive YTError where
  | server (status : Nat) (message : String) : YTError
  | authRequired : YTError
  | invalidInput (message : String) : YTError
deriving DecidableEq

/-- Transport oracle: the parsed JSON response (or failure) of the
continuation request carrying the given token. -/
def FetchCont : Type := String → Except YTError Json

/-- Continuation-items location probes of `fetch_playlist_continuations`:
the `continuationContents` shape first, then the
`appendContinuationItemsAction` shape. -/
def continuationItems (response : Json) : Option Json :=
  (nav response [.key "continuationContents",
    .key "musicPlaylistShelfContinuation", .key "contents"]).orElse
  (fun _ => nav response [.key "onResponseReceivedActions", .idx 0,
    .key "appendContinuationItemsAction", .key "continuationItems"])

/-- Next continuation token, re-derived from the tail of the freshly
fetched raw item batch. -/
def nextContinuationToken (items : List Json) : Option String :=
  items.getLast?.bind fun last =>
    (nav last CONTINUATION_TOKEN).bind Json.asStr

/-- Fuel-indexed unfolding of the `while let Some(current_token) = token`
loop of `client::fetch_playlist_continuations`.  Each continuing iteration
appends a non-empty parsed batch, so the loop runs at most
`max_items - acc.length + 1` iterations; the fuel-adequacy theorem below
makes that bound explicit, and exhausted fuel is therefore unreachable from
the entry point. -/
def contLoopF (fetch : FetchCont) (maxItems : Nat) :
    Nat → Option String → List PlaylistTrack → Except YTError (List PlaylistTrack)
  | _, none, acc => .ok acc
  | 0, some _, acc => .ok acc
  | fuel + 1, some t, acc =>
    if maxItems ≤ acc.length then .ok acc
    else
      match fetch t with
      | .error e => .error e
      | .ok response =>
        match continuationItems response with
        | some (.arr items) =>
          let tracks := parse_playlist_tracks items
          if tracks = [] then .ok acc
          else contLoopF fetch maxItems fuel (nextContinuationToken items) (acc ++ tracks)
        | _ => .ok acc

/-- `client::fetch_playlist_continuations`: run the loop from the initial
token with an empty accumulator, then truncate to `max_items`. -/
def fetch_playlist_continuations (fetch : FetchCont) (initialToken : String)
    (maxItems : Nat) : Except YTError (List PlaylistTrack) :=
  (contLoopF fetch maxItems (maxItems + 1) (some initialToken) []).map
    (fun l => l.take maxItems)

/-- Shelf location probed by `client::get_playlist` for the continuation
token of the first page. -/
def FIRST_PAGE_SHELF : List PathSeg :=
  [.key "contents", .key "twoColumnBrowseResultsRenderer",
   .key "secondaryContents", .key "sectionListRenderer", .key "contents",
   .idx 0, .key "musicPlaylistShelfRenderer"]

/-- Final steps of `client::get_playlist`: truncate to the caller's limit
(when one was given) and recompute `duration_seconds` over the final track
list. -/
def applyLimitAndDuration (limit : Option Nat) (p : Playlist) : Playlist :=
  let p := match limit with
    | some lim => { p with tracks := p.tracks.take lim }
    | none => p
  { p with duration_seconds := some (trackDurationSum p.tracks) }

/-- `client::get_playlist`, with the transport abstracted: `first` is the
outcome of the initial browse request and `fetch` answers the continuation
requests.  The requested maximum defaults to 5000 when `limit` is `None`. -/
def get_playlist (first : Except YTError Json) (fetch : FetchCont)
    (playlist_id : String) (limit : Option Nat) : Except YTError Playlist :=
  match first with
  | .error e => .error e
  | .ok response =>
    let playlist := parse_playlist_response response playlist_id
    let trackLimit := limit.getD 5000
    match nav response FIRST_PAGE_SHELF with
    | some shelf =>
      if playlist.tracks.length < trackLimit then
        match get_continuation_token shelf with
        | some token =>
          match fetch_playlist_continuations fetch token
              (trackLimit - playlist.tracks.length) with
          | .error e => .error e
          | .ok more =>
            .ok (applyLimitAndDuration limit
              { playlist with tracks := playlist.tracks ++ more })
        | none => .ok (applyLimitAndDuration limit playlist)
      else .ok (applyLimitAndDuration limit playlist)
    | none => .ok (applyLimitAndDuration limit playlist)

/-! Specification-side definitions used to state the claims, and the
concrete inputs of the counterexamples. -/

/-- Pair each element of a list with its index, starting at `i`. -/
def withIdx {α : Type} : Nat → List α → List (Nat × α)
  | _, [] => []
  | i, a :: rest => (i, a) :: withIdx (i + 1) rest

/-- Artists the specification expects from an artist-runs array: the runs
at even indices, each kept when it carries a text. -/
def evenIndexArtists (runs : List Json) : List Artist :=
  (withIdx 0 runs).filterMap fun p =>
    if p.1 % 2 = 0 then artistOfRun p.2 else none

/-- Track-count candidate a single second-subtitle run contributes. -/
def trackCountUpd (run : Json) : Option Nat :=
  match (run.getKey "text").bind Json.asStr with
  | none => none
  | some text => if hasSongTrack text then leadingCount text else none

/-- Duration-label candidate a single second-subtitle run contributes
(only a run the `song`/`track` branch did not already claim). -/
def durationUpd (run : Json) : Option String :=
  match (run.getKey "text").bind Json.asStr with
  | none => none
  | some text =>
    if !hasSongTrack text && hasHourMinute text then some text else none

/-- Track-count candidates of a run list, in order. -/
def trackCountUpdates (runs : List Json) : List Nat :=
  runs.filterMap trackCountUpd

/-- Duration-label candidates of a run list, in order. -/
def durationUpdates (runs : List Json) : List String :=
  runs.filterMap durationUpd

/-- Last update applied to an optional field: the final candidate when any
exists, the original value otherwise. -/
def lastUpd {α : Type} (orig : Option α) (updates : List α) : Option α :=
  match updates.getLast? with
  | some x => some x
  | none => orig

/-- Fixed location whose resolvability defines playlist ownership: the
editable-header wrapper under the first section-list item of the
two-column layout. -/
def OWNED_PATH : List PathSeg :=
  TWO_COLUMN_RENDERER ++ TAB_CONTENT ++ SECTION_LIST_ITEM ++
    EDITABLE_PLAYLIST_DETAIL_HEADER

/-- Full path of the explicit privacy field of an owned playlist. -/
def PRIVACY_FULL_PATH : List PathSeg :=
  OWNED_PATH ++ EDIT_HEADER_PRIVACY

/-- Prefix of `parse_playlist_response` whose resolvability separates the
early-return default playlist from the fully parsed one. -/
def LAYOUT_PATH : List PathSeg :=
  TWO_COLUMN_RENDERER ++ TAB_CONTENT ++ SECTION_LIST_ITEM

/-- Playlist response whose editable header is present but carries no
explicit privacy field. -/
def ownedNoPrivacyResponse : Json :=
  .obj [("contents", .obj [("twoColumnBrowseResultsRenderer", .obj
    [("tabs", .arr [ .obj [("tabRenderer", .obj [("content", .obj
       [("sectionListRenderer", .obj [("contents", .arr
          [ .obj [("musicEditablePlaylistDetailHeaderRenderer", .obj [])] ])])])])] ])])])]

/-- Minimal playlist response whose two-column layout resolves (everything
else absent). -/
def bareLayoutResponse : Json :=
  .obj [("contents", .obj [("twoColumnBrowseResultsRenderer", .obj
    [("tabs", .arr [ .obj [("tabRenderer", .obj [("content", .obj
       [("sectionListRenderer", .obj [("contents", .arr [Json.null])])])])] ])])])]

/-- Second-subtitle run whose text mentions both songs and hours. -/
def hourSongsRun : Json := .obj [("text", .str "2 hour songs")]

/-- Flex column whose rendered text is the empty string. -/
def emptyTextColumn : Json :=
  .obj [("musicResponsiveListItemFlexColumnRenderer", .obj
    [("text", .obj [("runs", .arr [ .obj [("text", .str "")] ])])])]

/-- Inner renderer of a track row whose only album candidate column (index
2) resolves to the empty string. -/
def emptyAlbumData : Json :=
  .obj [("flexColumns", .arr [Json.null, Json.null, emptyTextColumn])]

/-- Track row wrapping `emptyAlbumData`. -/
def emptyAlbumItem : Json :=
  .obj [("musicResponsiveListItemRenderer", emptyAlbumData)]

/-- Track parsed from `emptyAlbumItem`: empty-named album, everything else
defaulted. -/
def emptyAlbumTrack : PlaylistTrack :=
  { defaultTrack with album := some ⟨"", none⟩ }

/-- Continuation response carrying one continuation-item row (which parses
to no track) and a next token. -/
def emptyBatchResponse : Json :=
  .obj [("continuationContents", .obj [("musicPlaylistShelfContinuation",
    .obj [("contents", .arr [ .obj [("continuationItemRenderer", .obj
      [("continuationEndpoint", .obj [("continuationCommand", .obj
        [("token", .str "T2")])])])] ])])])]

/-! Helper lemmas about `parse_duration`. -/

/-- A segment that fails `u32` parsing forces the whole walk to `None`. -/
theorem durGo_none_of_mem {p : List Char} :
    ∀ (l : List (List Char)) (i acc : Nat), p ∈ l → parseU32 p = none →
      durGo l i acc = none := by
  intro l
  induction l with
  | nil => intro i acc h; cases h
  | cons q rest ih =>
    intro i acc hmem hfail
    show durGo (q :: rest) i acc = none
    rcases List.mem_cons.mp hmem with hq | hrest
    · subst hq
      simp [durGo, hfail]
    · cases hp : parseU32 q with
      | none => simp [durGo, hp]
      | some v =>
        cases hm : durMultiplier i with
        | none => simp [durGo, hp, hm]
        | some m => simpa [durGo, hp, hm] using ih (i + 1) (acc + v * m) hrest hfail

/-- With four or more segments remaining (counting the position), the walk
returns `None`. -/
theorem durGo_none_of_length :
    ∀ (l : List (List Char)) (i acc : Nat), l ≠ [] → 4 ≤ i + l.length →
      durGo l i acc = none := by
  intro l
  induction l with
  | nil => intro i acc h; exact absurd rfl h
  | cons q rest ih =>
    intro i acc _ hlen
    cases hp : parseU32 q with
    | none => simp [durGo, hp]
    | some v =>
      cases hm : durMultiplier i with
      | none => simp [durGo, hp, hm]
      | some m =>
        have hi : i ≤ 2 := by
          rcases i with _ | _ | _ | i4
          · omega
          · omega
          · omega
          · simp [durMultiplier] at hm
        have hrest : rest ≠ [] := by
          intro hE
          subst hE
          simp at hlen
          omega
        have hstep := ih (i + 1) (acc + v * m) hrest (by simp at hlen ⊢; omega)
        simp [durGo, hp, hm, hstep]

/-- The accumulator never decreases along the walk. -/
theorem durGo_le :
    ∀ (l : List (List Char)) (i acc n : Nat), durGo l i acc = some n → acc ≤ n := by
  intro l
  induction l with
  | nil => intro i acc n h; simp [durGo] at h; omega
  | cons q rest ih =>
    intro i acc n h
    cases hp : parseU32 q with
    | none => simp [durGo, hp] at h
    | some v =>
      cases hm : durMultiplier i with
      | none => simp [durGo, hp, hm] at h
      | some m =>
        simp [durGo, hp, hm] at h
        exact le_trans (Nat.le_add_right acc (v * m)) (ih (i + 1) (acc + v * m) n h)

/-- When the ideal result fits in `u32`, no intermediate operation
overflows. -/
theorem durPanicGo_false :
    ∀ (l : List (List Char)) (i acc n : Nat), durGo l i acc = some n →
      n ≤ u32Max → durPanicGo l i acc = false := by
  intro l
  induction l with
  | nil => intro i acc n _ _; rfl
  | cons q rest ih =>
    intro i acc n h hn
    cases hp : parseU32 q with
    | none => simp [durPanicGo, hp]
    | some v =>
      cases hm : durMultiplier i with
      | none => simp [durPanicGo, hp, hm]
      | some m =>
        simp [durGo, hp, hm] at h
        have hacc : acc + v * m ≤ n := durGo_le _ _ _ _ h
        have hcond : ¬(u32Max < v * m ∨ u32Max < acc + v * m) := by omega
        simp [durPanicGo, hp, hm, hcond]
        exact ih (i + 1) (acc + v * m) n h hn

/-- The trimmed input of a multi-segment split is not empty. -/
theorem trim_ne_of_split {s : String} {parts : List (List Char)} :
    splitChar ':' (trimL s.data) = parts → 2 ≤ parts.length →
    ¬ trimL s.data = [] := by
  intro hsplit hlen hE
  rw [hE] at hsplit
  simp [splitChar] at hsplit
  rw [← hsplit] at hlen
  simp at hlen

/-- A value produced by `parseU32` fits in `u32`. -/
theorem parseU32_le {p : List Char} {v : Nat} (h : parseU32 p = some v) :
    v ≤ u32Max := by
  simp only [parseU32] at h
  split at h
  · cases h
  · split at h
    · split at h
      · cases h; assumption
      · cases h
    · cases h

/-- While no step overflows, the wrapping accumulation agrees with the
ideal one. -/
theorem durGoWrap_eq_durGo :
    ∀ (l : List (List Char)) (i acc n : Nat), durGo l i acc = some n →
      n ≤ u32Max → durGoWrap l i acc = durGo l i acc := by
  intro l
  induction l with
  | nil => intro i acc n _ _; rfl
  | cons q rest ih =>
    intro i acc n h hn
    cases hp : parseU32 q with
    | none => simp [durGo, durGoWrap, hp]
    | some v =>
      cases hm : durMultiplier i with
      | none => simp [durGo, durGoWrap, hp, hm]
      | some m =>
        simp only [durGo, hp, hm] at h
        have hacc : acc + v * m ≤ n := durGo_le _ _ _ _ h
        have hvm : (v * m) % 4294967296 = v * m := by
          apply Nat.mod_eq_of_lt
          have : v * m ≤ u32Max := by omega
          simp only [u32Max] at this
          omega
        have hsum : (acc + v * m) % 4294967296 = acc + v * m := by
          apply Nat.mod_eq_of_lt
          have : acc + v * m ≤ u32Max := by omega
          simp only [u32Max] at this
          omega
        simp only [durGo, durGoWrap, hp, hm, hvm, hsum]
        exact ih (i + 1) (acc + v * m) n h hn

/-- A `None` of the ideal walk is a `None` of the wrapping walk: the
control flow deciding failure never reads the accumulator. -/
theorem durGoWrap_none_of_durGo :
    ∀ (l : List (List Char)) (i acc acc2 : Nat), durGo l i acc = none →
      durGoWrap l i acc2 = none := by
  intro l
  induction l with
  | nil => intro i acc acc2 h; cases h
  | cons q rest ih =>
    intro i acc acc2 h
    cases hp : parseU32 q with
    | none => simp [durGoWrap, hp]
    | some v =>
      cases hm : durMultiplier i with
      | none => simp [durGoWrap, hp, hm]
      | some m =>
        simp only [durGo, hp, hm] at h
        simp only [durGoWrap, hp, hm]
        exact ih (i + 1) (acc + v * m) _ h

/-- Counterexample for C5: `"71582789:0"` is a well-formed two-segment
numeric duration string (both segments parse as `u32`), but its total
`71582789 * 60 + 0 = 4294967340` exceeds `u32::MAX`, so the unchecked
`u32` accumulation of the source does not return it: a release build wraps
to `Some(44)` and a debug build panics at the overflowing multiplication. -/
theorem claim_C5_counterexample :
    splitChar ':' (trimL "71582789:0".data) = ["71582789".data, "0".data]
    ∧ parseU32 "71582789".data = some 71582789
    ∧ parseU32 "0".data = some 0
    ∧ durationPanics "71582789:0" = true
    ∧ parse_duration_wrap "71582789:0" = some 44
    ∧ 71582789 * 60 + 0 = 4294967340
    ∧ (some 44 : Option Nat) ≠ some (71582789 * 60 + 0) := by
  refine ⟨by decide, by decide, by decide, by decide, by decide, by decide,
    by decide⟩

/-- C5 as amended.  For every well-formed colon-delimited numeric duration
string of one to three segments whose total `hours * 3600 + minutes * 60 +
seconds` fits in `u32`, `parse_duration` returns exactly that total — the
wrapping release-build result agrees and no `u32` step overflows, so ideal
and source coincide in both build modes; when the total exceeds `u32::MAX`
the arithmetic overflows instead of returning the mathematical value (the
counterexample).  A string with a segment that does not parse as `u32`,
with more than three segments, or whose trimmed content is empty yields
`None` rather than a partial value under both accumulation semantics
(`durationPanics` separately flags the inputs where a debug build panics
before that `None` is reached). -/
theorem claim_C5_amended :
    (∀ (s : String) (p : List Char) (v : Nat),
        splitChar ':' (trimL s.data) = [p] →
        parseU32 p = some v →
        parse_duration s = some v ∧ parse_duration_wrap s = some v
          ∧ durationPanics s = false)
    ∧ (∀ (s : String) (p₁ p₂ : List Char) (v₁ v₂ : Nat),
        splitChar ':' (trimL s.data) = [p₁, p₂] →
        parseU32 p₁ = some v₁ → parseU32 p₂ = some v₂ →
        v₁ * 60 + v₂ ≤ u32Max →
        parse_duration s = some (v₁ * 60 + v₂)
          ∧ parse_duration_wrap s = some (v₁ * 60 + v₂)
          ∧ durationPanics s = false)
    ∧ (∀ (s : String) (p₁ p₂ p₃ : List Char) (v₁ v₂ v₃ : Nat),
        splitChar ':' (trimL s.data) = [p₁, p₂, p₃] →
        parseU32 p₁ = some v₁ → parseU32 p₂ = some v₂ → parseU32 p₃ = some v₃ →
        v₁ * 3600 + v₂ * 60 + v₃ ≤ u32Max →
        parse_duration s = some (v₁ * 3600 + v₂ * 60 + v₃)
          ∧ parse_duration_wrap s = some (v₁ * 3600 + v₂ * 60 + v₃)
          ∧ durationPanics s = false)
    ∧ (∀ (s : String), 4 ≤ (splitChar ':' (trimL s.data)).length →
        parse_duration s = none ∧ parse_duration_wrap s = none)
    ∧ (∀ (s : String) (p : List Char), p ∈ splitChar ':' (trimL s.data) →
        parseU32 p = none →
        parse_duration s = none ∧ parse_duration_wrap s = none)
    ∧ (∀ (s : String), trimL s.data = [] →
        parse_duration s = none ∧ parse_duration_wrap s = none) := by
  refine ⟨?_, ?_, ?_, ?_, ?_, ?_⟩
  · intro s p v hsplit hp
    have hne : ¬ trimL s.data = [] := by
      intro hE
      rw [hE] at hsplit
      simp [splitChar] at hsplit
      rw [hsplit] at hp
      simp [parseU32] at hp
    have hideal : parse_duration s = some v := by
      simp only [parse_duration, if_neg hne, hsplit]
      simp [durGo, hp, durMultiplier]
    have hgo : durGo (splitChar ':' (trimL s.data)).reverse 0 0 = some v := by
      simp only [parse_duration, if_neg hne] at hideal
      exact hideal
    refine ⟨hideal, ?_, ?_⟩
    · simp only [parse_duration_wrap, if_neg hne]
      rw [durGoWrap_eq_durGo _ 0 0 v hgo (parseU32_le hp)]
      exact hgo
    · simp only [durationPanics, if_neg hne]
      exact durPanicGo_false _ 0 0 v hgo (parseU32_le hp)
  · intro s p₁ p₂ v₁ v₂ hsplit hp₁ hp₂ hle
    have hne := trim_ne_of_split hsplit (by simp)
    have hideal : parse_duration s = some (v₁ * 60 + v₂) := by
      simp only [parse_duration, if_neg hne, hsplit]
      simp [durGo, hp₁, hp₂, durMultiplier]
      omega
    have hgo : durGo (splitChar ':' (trimL s.data)).reverse 0 0
        = some (v₁ * 60 + v₂) := by
      simp only [parse_duration, if_neg hne] at hideal
      exact hideal
    refine ⟨hideal, ?_, ?_⟩
    · simp only [parse_duration_wrap, if_neg hne]
      rw [durGoWrap_eq_durGo _ 0 0 _ hgo hle]
      exact hgo
    · simp only [durationPanics, if_neg hne]
      exact durPanicGo_false _ 0 0 _ hgo hle
  · intro s p₁ p₂ p₃ v₁ v₂ v₃ hsplit hp₁ hp₂ hp₃ hle
    have hne := trim_ne_of_split hsplit (by simp)
    have hideal : parse_duration s = some (v₁ * 3600 + v₂ * 60 + v₃) := by
      simp only [parse_duration, if_neg hne, hsplit]
      simp [durGo, hp₁, hp₂, hp₃, durMultiplier]
      omega
    have hgo : durGo (splitChar ':' (trimL s.data)).reverse 0 0
        = some (v₁ * 3600 + v₂ * 60 + v₃) := by
      simp only [parse_duration, if_neg hne] at hideal
      exact hideal
    refine ⟨hideal, ?_, ?_⟩
    · simp only [parse_duration_wrap, if_neg hne]
      rw [durGoWrap_eq_durGo _ 0 0 _ hgo hle]
      exact hgo
    · simp only [durationPanics, if_neg hne]
      exact durPanicGo_false _ 0 0 _ hgo hle
  · intro s hlen
    have hne : ¬ trimL s.data = [] := by
      intro hE
      rw [hE] at hlen
      simp [splitChar] at hlen
    have hgo : durGo (splitChar ':' (trimL s.data)).reverse 0 0 = none := by
      refine durGo_none_of_length _ 0 0 ?_ ?_
      · intro hE
        have : (splitChar ':' (trimL s.data)).length = 0 := by
          rw [← List.length_reverse, hE]
          rfl
        omega
      · simp
        omega
    constructor
    · simp only [parse_duration, if_neg hne]
      exact hgo
    · simp only [parse_duration_wrap, if_neg hne]
      exact durGoWrap_none_of_durGo _ 0 0 0 hgo
  · intro s p hmem hfail
    by_cases hne : trimL s.data = []
    · constructor
      · simp [parse_duration, hne]
      · simp [parse_duration_wrap, hne]
    · have hgo : durGo (splitChar ':' (trimL s.data)).reverse 0 0 = none :=
        durGo_none_of_mem _ 0 0 (List.mem_reverse.mpr hmem) hfail
      constructor
      · simp only [parse_duration, if_neg hne]
        exact hgo
      · simp only [parse_duration_wrap, if_neg hne]
        exact durGoWrap_none_of_durGo _ 0 0 0 hgo
  · intro s hE
    constructor
    · simp [parse_duration, hE]
    · simp [parse_duration_wrap, hE]

/-- Witness for C5's amended theorem: each branch applied at a concrete
input. -/
theorem claim_C5_amended_witness :
    (parse_duration "42" = some 42 ∧ parse_duration_wrap "42" = some 42
      ∧ durationPanics "42" = false)
    ∧ (parse_duration "3:42" = some (3 * 60 + 42)
      ∧ parse_duration_wrap "3:42" = some (3 * 60 + 42)
      ∧ durationPanics "3:42" = false)
    ∧ (parse_duration "1:23:45" = some (1 * 3600 + 23 * 60 + 45)
      ∧ parse_duration_wrap "1:23:45" = some (1 * 3600 + 23 * 60 + 45)
      ∧ durationPanics "1:23:45" = false)
    ∧ (parse_duration "1:2:3:4" = none ∧ parse_duration_wrap "1:2:3:4" = none)
    ∧ (parse_duration "1:x" = none ∧ parse_duration_wrap "1:x" = none)
    ∧ (parse_duration "  " = none ∧ parse_duration_wrap "  " = none) := by
  refine ⟨?_, ?_, ?_, ?_, ?_, ?_⟩
  · exact claim_C5_amended.1 "42" "42".data 42 (by decide) (by decide)
  · exact claim_C5_amended.2.1 "3:42" "3".data "42".data 3 42
      (by decide) (by decide) (by decide) (by decide)
  · exact claim_C5_amended.2.2.1 "1:23:45" "1".data "23".data "45".data
      1 23 45 (by decide) (by decide) (by decide) (by decide) (by decide)
  · exact claim_C5_amended.2.2.2.1 "1:2:3:4" (by decide)
  · exact claim_C5_amended.2.2.2.2.1 "1:x" "x".data (by decide) (by decide)
  · exact claim_C5_amended.2.2.2.2.2 "  " (by decide)

/-- Counterexample for C10: on `"4294967295:0"` every segment individually
parses as `u32`, yet the minutes multiplication overflows `u32::MAX`
(panicking in a debug build, wrapping in release). -/
theorem claim_C10_counterexample :
    durationPanics "4294967295:0" = true
    ∧ parseU32 "4294967295".data = some 4294967295
    ∧ parseU32 "0".data = some 0
    ∧ splitChar ':' (trimL "4294967295:0".data) = ["4294967295".data, "0".data] := by
  refine ⟨by decide, by decide, by decide, by decide⟩

/-- C10 as amended: the `u32` arithmetic of `parse_duration` cannot
overflow as long as the mathematical result fits in `u32` — in particular
for every real clock duration — but inputs whose scaled total exceeds
`u32::MAX` do overflow, as the counterexample shows. -/
theorem claim_C10_amended :
    ∀ (s : String) (n : Nat), parse_duration s = some n → n ≤ u32Max →
      durationPanics s = false := by
  intro s n h hn
  by_cases hE : trimL s.data = []
  · simp [durationPanics, hE]
  · simp only [parse_duration, if_neg hE] at h
    simp only [durationPanics, if_neg hE]
    exact durPanicGo_false _ 0 0 n h hn

/-- Witness for C10's amended theorem at a concrete in-range input. -/
theorem claim_C10_amended_witness : durationPanics "1:23:45" = false :=
  claim_C10_amended "1:23:45" 5025 (by decide) (by decide)

/-! Artist-run parsing (claim C9). -/

/-- Two-step induction on lists, matching the stride-2 visit of
`parse_artist_runs`. -/
theorem twoStepList {α : Type} {motive : List α → Prop} (h0 : motive [])
    (h1 : ∀ a, motive [a])
    (h2 : ∀ a b l, motive l → motive (a :: b :: l)) :
    ∀ l, motive l
  | [] => h0
  | [a] => h1 a
  | a :: b :: l => h2 a b l (twoStepList h0 h1 h2 l)

/-- `parse_artist_runs` keeps exactly the even-indexed runs, shifted by any
even starting index. -/
theorem parse_artist_runs_withIdx :
    ∀ (runs : List Json) (i : Nat), i % 2 = 0 →
      ((withIdx i runs).filterMap fun p =>
        if p.1 % 2 = 0 then artistOfRun p.2 else none) = parse_artist_runs runs := by
  intro runs
  induction runs using twoStepList with
  | h0 => intro i _; rfl
  | h1 a =>
    intro i hi
    cases hA : artistOfRun a <;>
      simp [withIdx, parse_artist_runs, hi, hA]
  | h2 a b l ih =>
    intro i hi
    have hib : (i + 1) % 2 ≠ 0 := by omega
    have hil : (i + 2) % 2 = 0 := by omega
    cases hA : artistOfRun a <;>
      simp [withIdx, parse_artist_runs, hi, hib, hA, ih (i + 2) hil]

/-- C9.  Artist-run parsing keeps exactly the even-indexed runs (each kept
when it carries a text, with an absent id when no browse id resolves) and
never includes the separator runs at odd indices; in particular the 3-run
array of the claim yields exactly the two artists `A` (with id `X`) and `B`
(with absent id). -/
theorem claim_C9_artist_runs :
    (∀ runs : List Json, parse_artist_runs runs = evenIndexArtists runs)
    ∧ parse_artist_runs
        [ .obj [("text", .str "A"),
                ("navigationEndpoint", .obj [("browseEndpoint",
                  .obj [("browseId", .str "X")])])],
          .obj [("text", .str " & ")],
          .obj [("text", .str "B")] ]
      = [⟨"A", some "X"⟩, ⟨"B", none⟩] := by
  constructor
  · intro runs
    exact (parse_artist_runs_withIdx runs 0 rfl).symm
  · decide

/-! Second-subtitle metadata (claim C7). -/

/-- Field-level description of one meta step: `track_count`. -/
theorem metaStep_track_count (p : Playlist) (run : Json) :
    (metaStep p run).track_count =
      match trackCountUpd run with
      | some c => some c
      | none => p.track_count := by
  unfold metaStep trackCountUpd
  cases (run.getKey "text").bind Json.asStr with
  | none => rfl
  | some text =>
    by_cases hst : hasSongTrack text
    · cases hlc : leadingCount text <;> simp [hst, hlc]
    · by_cases hhm : hasHourMinute text <;> simp [hst, hhm]

/-- Field-level description of one meta step: `duration`. -/
theorem metaStep_duration (p : Playlist) (run : Json) :
    (metaStep p run).duration =
      match durationUpd run with
      | some d => some d
      | none => p.duration := by
  unfold metaStep durationUpd
  cases (run.getKey "text").bind Json.asStr with
  | none => rfl
  | some text =>
    by_cases hst : hasSongTrack text
    · cases hlc : leadingCount text <;> simp [hst, hlc]
    · by_cases hhm : hasHourMinute text <;> simp [hst, hhm]

/-- A meta step only ever touches `track_count` and `duration`. -/
theorem metaStep_preserves (p : Playlist) (run : Json) :
    (metaStep p run).owned = p.owned ∧ (metaStep p run).privacy = p.privacy
    ∧ (metaStep p run).tracks = p.tracks := by
  unfold metaStep
  cases (run.getKey "text").bind Json.asStr with
  | none => exact ⟨rfl, rfl, rfl⟩
  | some text =>
    by_cases hst : hasSongTrack text
    · cases hlc : leadingCount text <;> simp [hst, hlc]
    · by_cases hhm : hasHourMinute text <;> simp [hst, hhm]

/-- Pushing the last update through one more candidate. -/
theorem lastUpd_cons {α : Type} (o : Option α) (u : α) (l : List α) :
    lastUpd o (u :: l) = lastUpd (some u) l := by
  cases l with
  | nil => rfl
  | cons x xs =>
    unfold lastUpd
    rw [List.getLast?_cons_cons]
    cases h : (x :: xs).getLast? with
    | none => exact absurd (List.getLast?_eq_none_iff.mp h) (by simp)
    | some y => rfl

/-- The meta fold leaves `owned`, `privacy` and `tracks` untouched. -/
theorem parse_meta_preserves :
    ∀ (runs : List Json) (p : Playlist),
      (parse_playlist_meta_from_runs runs p).owned = p.owned
      ∧ (parse_playlist_meta_from_runs runs p).privacy = p.privacy
      ∧ (parse_playlist_meta_from_runs runs p).tracks = p.tracks := by
  intro runs
  induction runs with
  | nil => intro p; exact ⟨rfl, rfl, rfl⟩
  | cons r rest ih =>
    intro p
    have hstep := metaStep_preserves p r
    have hrec := ih (metaStep p r)
    simp only [parse_playlist_meta_from_runs, List.foldl_cons] at *
    exact ⟨hrec.1.trans hstep.1, hrec.2.1.trans hstep.2.1,
      hrec.2.2.trans hstep.2.2⟩

/-- Counterexample for C7: the run `"2 hour songs"` satisfies both the
`song`/`track` and the `hour`/`minute` conditions, yet only `track_count`
is set — the `else if` in the source prevents the duration label from
being stored for a run the first branch already matched. -/
theorem claim_C7_counterexample :
    hasSongTrack "2 hour songs" = true
    ∧ hasHourMinute "2 hour songs" = true
    ∧ (parse_playlist_meta_from_runs [hourSongsRun] defaultPlaylist).track_count
        = some 2
    ∧ (parse_playlist_meta_from_runs [hourSongsRun] defaultPlaylist).duration
        = none := by
  refine ⟨by decide, by decide, by decide, by decide⟩

/-- C7 as amended: a run whose text contains `song`/`track`
(case-insensitively) updates `track_count` with its leading comma-stripped
integer when one parses; a run whose text does not contain `song`/`track`
but contains `hour`/`minute` stores its text verbatim as the duration
label.  The two branches are tried in that priority order per run (a
single run can only feed the first branch it matches), while the two
fields may still be set by different runs; each field keeps the last
update, or its prior value when no run updates it. -/
theorem claim_C7_amended :
    ∀ (runs : List Json) (p : Playlist),
      (parse_playlist_meta_from_runs runs p).track_count
          = lastUpd p.track_count (trackCountUpdates runs)
      ∧ (parse_playlist_meta_from_runs runs p).duration
          = lastUpd p.duration (durationUpdates runs) := by
  intro runs
  induction runs with
  | nil => intro p; exact ⟨rfl, rfl⟩
  | cons r rest ih =>
    intro p
    have hrec := ih (metaStep p r)
    simp only [parse_playlist_meta_from_runs, List.foldl_cons] at hrec ⊢
    constructor
    · rw [hrec.1, metaStep_track_count]
      cases hu : trackCountUpd r with
      | none =>
        have hcons : trackCountUpdates (r :: rest) = trackCountUpdates rest := by
          simp [trackCountUpdates, List.filterMap_cons, hu]
        rw [hcons]
      | some u =>
        have hcons : trackCountUpdates (r :: rest) = u :: trackCountUpdates rest := by
          simp [trackCountUpdates, List.filterMap_cons, hu]
        rw [hcons, lastUpd_cons]
    · rw [hrec.2, metaStep_duration]
      cases hu : durationUpd r with
      | none =>
        have hcons : durationUpdates (r :: rest) = durationUpdates rest := by
          simp [durationUpdates, List.filterMap_cons, hu]
        rw [hcons]
      | some u =>
        have hcons : durationUpdates (r :: rest) = u :: durationUpdates rest := by
          simp [durationUpdates, List.filterMap_cons, hu]
        rw [hcons, lastUpd_cons]

/-! Ownership and privacy (claim C2). -/

/-- Navigation is compositional: a concatenated path walks the prefix and
then the suffix. -/
theorem nav_append :
    ∀ (p q : List PathSeg) (root : Json),
      nav root (p ++ q) = (nav root p).bind (fun v => nav v q) := by
  intro p
  induction p with
  | nil => intro q root; rfl
  | cons seg rest ih =>
    intro q root
    cases seg with
    | key k =>
      cases h : root.getKey k with
      | none => simp [nav, h]
      | some v => simp [nav, h, ih]
    | idx i =>
      cases h : root.getIdx i with
      | none => simp [nav, h]
      | some v => simp [nav, h, ih]

/-- The header block never touches `owned` or `privacy`. -/
theorem applyHeaderMeta_preserves (header : Json) (p : Playlist) :
    (applyHeaderMeta header p).owned = p.owned
    ∧ (applyHeaderMeta header p).privacy = p.privacy := by
  simp only [applyHeaderMeta]
  constructor
  all_goals
    split <;>
      first
      | (rw [(parse_meta_preserves _ _).1] <;> split <;> rfl)
      | (rw [(parse_meta_preserves _ _).2.1] <;> split <;> rfl)
      | (split <;> rfl)

/-- The track block never touches `owned` or `privacy`. -/
theorem finishPlaylist_preserves (two_col : Json) (pp : Playlist) :
    (finishPlaylist two_col pp).owned = pp.owned
    ∧ (finishPlaylist two_col pp).privacy = pp.privacy := by
  simp only [finishPlaylist]
  constructor
  all_goals split <;> first | rfl | (split <;> rfl)

/-- Counterexample for C2: a response whose editable header is present but
carries no resolvable privacy string is parsed as owned with privacy
`Private`, not the claimed default `Public`. -/
theorem claim_C2_counterexample :
    (parse_playlist_response ownedNoPrivacyResponse "PLx").owned = true
    ∧ nav_str ownedNoPrivacyResponse PRIVACY_FULL_PATH = none
    ∧ (parse_playlist_response ownedNoPrivacyResponse "PLx").privacy
        = Privacy.Private := by
  refine ⟨by decide, by decide, by decide⟩

/-- C2 as amended: a playlist is owned exactly when the editable-header
wrapper resolves at its fixed location; when owned, the privacy comes from
the editable header's explicit privacy field (via `Privacy::from`, which
itself defaults unknown strings to `Public`), falling back to `Private` —
not `Public` — when that field cannot be resolved; when not owned the
privacy is always `Public`. -/
theorem claim_C2_amended :
    ∀ (response : Json) (pid : String),
      (parse_playlist_response response pid).owned
          = (nav response OWNED_PATH).isSome
      ∧ (parse_playlist_response response pid).privacy
          = (if (nav response OWNED_PATH).isSome then
              match nav_str response PRIVACY_FULL_PATH with
              | some s => privacyFromStr s
              | none => Privacy.Private
            else Privacy.Public) := by
  intro response pid
  have hOwned : nav response OWNED_PATH =
      (nav response TWO_COLUMN_RENDERER).bind (fun a =>
        (nav a TAB_CONTENT).bind (fun b =>
          (nav b SECTION_LIST_ITEM).bind (fun c =>
            nav c EDITABLE_PLAYLIST_DETAIL_HEADER))) := by
    simp [OWNED_PATH, nav_append, Option.bind_assoc]
  have hPriv : nav_str response PRIVACY_FULL_PATH =
      (nav response OWNED_PATH).bind (fun e => nav_str e EDIT_HEADER_PRIVACY) := by
    simp [PRIVACY_FULL_PATH, nav_str, nav_append, Option.bind_assoc]
  simp only [parse_playlist_response]
  cases h1 : nav response TWO_COLUMN_RENDERER with
  | none => rw [hPriv, hOwned, h1]; exact ⟨rfl, rfl⟩
  | some two_col =>
    cases h2 : nav two_col TAB_CONTENT with
    | none => rw [hPriv, hOwned, h1]; simp only [Option.some_bind]; rw [h2]; exact ⟨rfl, rfl⟩
    | some tab_content =>
      cases h3 : nav tab_content SECTION_LIST_ITEM with
      | none =>
        rw [hPriv, hOwned, h1]
        simp only [Option.some_bind]
        rw [h2]
        simp only [Option.some_bind]
        rw [h3]
        exact ⟨rfl, rfl⟩
      | some sli =>
        rw [hPriv, hOwned, h1]
        simp only [Option.some_bind]
        rw [h2]
        simp only [Option.some_bind]
        rw [h3]
        simp only [Option.some_bind]
        cases h4 : nav sli EDITABLE_PLAYLIST_DETAIL_HEADER with
        | none =>
          dsimp only
          refine ⟨?_, ?_⟩ <;>
            cases h5 : nav sli RESPONSIVE_HEADER <;>
              dsimp only <;>
              first
              | (rw [(finishPlaylist_preserves _ _).1,
                     (applyHeaderMeta_preserves _ _).1]; rfl)
              | (rw [(finishPlaylist_preserves _ _).1]; rfl)
              | (rw [(finishPlaylist_preserves _ _).2,
                     (applyHeaderMeta_preserves _ _).2]; rfl)
              | (rw [(finishPlaylist_preserves _ _).2]; rfl)
        | some editable =>
          dsimp only
          refine ⟨?_, ?_⟩ <;>
            cases h5 : nav editable EDITABLE_RESPONSIVE_HEADER <;>
              dsimp only <;>
              first
              | (rw [(finishPlaylist_preserves _ _).1,
                     (applyHeaderMeta_preserves _ _).1]; rfl)
              | (rw [(finishPlaylist_preserves _ _).1]; rfl)
              | (rw [(finishPlaylist_preserves _ _).2,
                     (applyHeaderMeta_preserves _ _).2]; rfl)
              | (rw [(finishPlaylist_preserves _ _).2]; rfl)

/-! Album selection (claim C8). -/

/-- A failed `findSome?` over an index range means failure at every index
of the range. -/
theorem findSome?_range'_eq_none {β : Type} (f : Nat → Option β) :
    ∀ (n s : Nat), (List.range' s n).findSome? f = none ↔
      ∀ i, s ≤ i → i < s + n → f i = none := by
  intro n
  induction n with
  | zero =>
    intro s
    constructor
    · intro _ i h1 h2; omega
    · intro _; rfl
  | succ m ih =>
    intro s
    rw [List.range'_succ, List.findSome?_cons]
    cases hs : f s with
    | some b =>
      constructor
      · intro h; cases h
      · intro h
        have := h s (le_refl s) (by omega)
        rw [this] at hs
        cases hs
    | none =>
      rw [ih (s + 1)]
      constructor
      · intro h i h1 h2
        rcases Nat.eq_or_lt_of_le h1 with hEq | hLt
        · rw [← hEq]; exact hs
        · exact h i hLt (by omega)
      · intro h i h1 h2
        exact h i (by omega) (by omega)

/-- A successful `findSome?` over an index range identifies the first
index where the function succeeds. -/
theorem findSome?_range'_eq_some {β : Type} (f : Nat → Option β) :
    ∀ (n s : Nat) (b : β), (List.range' s n).findSome? f = some b →
      ∃ i, s ≤ i ∧ i < s + n ∧ f i = some b ∧
        ∀ j, s ≤ j → j < i → f j = none := by
  intro n
  induction n with
  | zero => intro s b h; cases h
  | succ m ih =>
    intro s b h
    rw [List.range'_succ, List.findSome?_cons] at h
    cases hs : f s with
    | some b' =>
      rw [hs] at h
      cases h
      exact ⟨s, le_refl s, by omega, hs, fun j h1 h2 => by omega⟩
    | none =>
      rw [hs] at h
      obtain ⟨i, hi1, hi2, hi3, hi4⟩ := ih (s + 1) b h
      refine ⟨i, by omega, by omega, hi3, ?_⟩
      intro j h1 h2
      rcases Nat.eq_or_lt_of_le h1 with hEq | hLt
      · rw [← hEq]; exact hs
      · exact hi4 j hLt h2

/-- Counterexample for C8: a row whose only candidate column (index 2)
renders the empty string still yields an album — the parser accepts any
resolving text, empty or not, so the claim's "non-empty value" is wrong. -/
theorem claim_C8_counterexample :
    get_item_text emptyAlbumData 2 = some ""
    ∧ (parse_playlist_track emptyAlbumItem).map (fun t => t.album)
        = some (some ⟨"", none⟩) := by
  refine ⟨by decide, by decide⟩

/-- C8 as amended: the parsed album is taken from the first flex column at
index 2 or later whose content text resolves to a string value — including
the empty string — and the search stops at that first match; when no later
column's text resolves at all, the track has no album. -/
theorem claim_C8_amended :
    ∀ (item data : Json) (tr : PlaylistTrack) (flexCols : List Json),
      item.getKey "musicResponsiveListItemRenderer" = some data →
      (data.getKey "flexColumns").bind Json.asArr = some flexCols →
      parse_playlist_track item = some tr →
      ((tr.album = none
          ∧ ∀ i, 2 ≤ i → i < flexCols.length → parse_song_album data i = none)
       ∨ (∃ i, 2 ≤ i ∧ i < flexCols.length ∧ parse_song_album data i = tr.album
          ∧ tr.album ≠ none
          ∧ ∀ j, 2 ≤ j → j < i → parse_song_album data j = none)) := by
  intro item data tr flexCols hwrap hflex htr
  have hdata : parseTrackData data = some tr := by
    rw [parse_playlist_track, hwrap] at htr
    exact htr
  have halbum : tr.album =
      (List.range' 2 (flexCols.length - 2)).findSome? (parse_song_album data) := by
    simp only [parseTrackData] at hdata
    rw [hflex] at hdata
    dsimp only at hdata
    by_cases hdel : get_item_text data 0 = some "Song deleted"
    · rw [if_pos hdel] at hdata; cases hdata
    · rw [if_neg hdel] at hdata
      cases hdata
      rfl
  cases hfind : (List.range' 2 (flexCols.length - 2)).findSome?
      (parse_song_album data) with
  | none =>
    left
    refine ⟨by rw [halbum, hfind], ?_⟩
    intro i h1 h2
    exact ((findSome?_range'_eq_none _ _ _).mp hfind) i h1 (by omega)
  | some a =>
    right
    obtain ⟨i, hi1, hi2, hi3, hi4⟩ := findSome?_range'_eq_some _ _ _ _ hfind
    refine ⟨i, hi1, by omega, ?_, ?_, hi4⟩
    · rw [halbum, hfind, hi3]
    · rw [halbum, hfind]; intro h; cases h

/-- Witness for C8's amended theorem: its conclusion at a concrete row
whose album resolves at column index 2. -/
theorem claim_C8_amended_witness :
    (emptyAlbumTrack.album = none
        ∧ ∀ i, 2 ≤ i → i < [Json.null, Json.null, emptyTextColumn].length →
            parse_song_album emptyAlbumData i = none)
    ∨ (∃ i, 2 ≤ i ∧ i < [Json.null, Json.null, emptyTextColumn].length
        ∧ parse_song_album emptyAlbumData i = emptyAlbumTrack.album
        ∧ emptyAlbumTrack.album ≠ none
        ∧ ∀ j, 2 ≤ j → j < i → parse_song_album emptyAlbumData j = none) :=
  claim_C8_amended emptyAlbumItem emptyAlbumData emptyAlbumTrack
    [Json.null, Json.null, emptyTextColumn] rfl rfl rfl

/-! Playlist duration recomputation (claim C1). -/

/-- Folding with a wrapping add equals the plain sum taken modulo `2^32`. -/
theorem foldl_wrap_add :
    ∀ (l : List Nat) (a : Nat),
      l.foldl (fun acc v => (acc + v) % 4294967296) (a % 4294967296)
        = (a + l.sum) % 4294967296 := by
  intro l
  induction l with
  | nil => intro a; simp
  | cons v rest ih =>
    intro a
    rw [List.foldl_cons, Nat.mod_add_mod, ih (a + v), List.sum_cons]
    ring_nf

/-- Present-values sum equals the absent-as-zero sum. -/
theorem filterMap_duration_sum :
    ∀ (tracks : List PlaylistTrack),
      (tracks.filterMap (fun t => t.duration_seconds)).sum
        = (tracks.map (fun t => t.duration_seconds.getD 0)).sum := by
  intro tracks
  induction tracks with
  | nil => rfl
  | cons t rest ih =>
    cases h : t.duration_seconds <;>
      simp [List.filterMap_cons, h, ih]

/-- The wrapping track-duration sum, restated over all tracks with absent
values as zero. -/
theorem trackDurationSum_eq (tracks : List PlaylistTrack) :
    trackDurationSum tracks
      = (tracks.map (fun t => t.duration_seconds.getD 0)).sum % 4294967296 := by
  unfold trackDurationSum
  have h0 : (0 : Nat) = 0 % 4294967296 := rfl
  rw [h0, foldl_wrap_add, filterMap_duration_sum]
  simp

/-- The final `get_playlist` steps always recompute the duration over the
final track list. -/
theorem applyLimitAndDuration_duration (limit : Option Nat) (p : Playlist) :
    (applyLimitAndDuration limit p).duration_seconds
      = some (((applyLimitAndDuration limit p).tracks.map
          (fun t => t.duration_seconds.getD 0)).sum % 4294967296) := by
  unfold applyLimitAndDuration
  cases limit <;> simp [trackDurationSum_eq]

/-- The track block recomputes the duration over the final track list. -/
theorem finishPlaylist_duration (two_col : Json) (pp : Playlist) :
    (finishPlaylist two_col pp).duration_seconds
      = some (((finishPlaylist two_col pp).tracks.map
          (fun t => t.duration_seconds.getD 0)).sum % 4294967296) := by
  simp only [finishPlaylist]
  split
  · split <;> simp [trackDurationSum_eq]
  · simp [trackDurationSum_eq]

/-- Counterexample for C1: a response whose two-column layout does not
resolve is returned by `parse_playlist_response` through an early return
that skips the duration summation — `duration_seconds` stays absent
instead of being the (empty) track sum `some 0`. -/
theorem claim_C1_counterexample :
    (parse_playlist_response Json.null "PL").duration_seconds = none
    ∧ (parse_playlist_response Json.null "PL").tracks = [] := by
  refine ⟨by decide, by decide⟩

/-- C1 as amended: the paginated result of `get_playlist` always carries
`duration_seconds` equal to the (u32-wrapping) sum of its tracks'
`duration_seconds` with absent values as zero, and `parse_playlist_response`
does so whenever its layout navigation succeeds (on the early-return paths
the default playlist keeps `duration_seconds` absent); the field is never
taken from the upstream response. -/
theorem claim_C1_amended :
    (∀ (response : Json) (pid : String),
      (nav response LAYOUT_PATH).isSome →
      (parse_playlist_response response pid).duration_seconds
        = some (((parse_playlist_response response pid).tracks.map
            (fun t => t.duration_seconds.getD 0)).sum % 4294967296))
    ∧ (∀ (first : Except YTError Json) (fetch : FetchCont) (pid : String)
        (limit : Option Nat) (p : Playlist),
        get_playlist first fetch pid limit = .ok p →
        p.duration_seconds
          = some ((p.tracks.map (fun t => t.duration_seconds.getD 0)).sum
              % 4294967296)) := by
  constructor
  · intro response pid hnav
    have hsplit : nav response LAYOUT_PATH =
        (nav response TWO_COLUMN_RENDERER).bind (fun a =>
          (nav a TAB_CONTENT).bind (fun b => nav b SECTION_LIST_ITEM)) := by
      simp [LAYOUT_PATH, nav_append, Option.bind_assoc]
    rw [hsplit] at hnav
    simp only [parse_playlist_response]
    cases h1 : nav response TWO_COLUMN_RENDERER with
    | none => rw [h1] at hnav; cases hnav
    | some two_col =>
      rw [h1] at hnav
      simp only [Option.some_bind] at hnav
      dsimp only
      cases h2 : nav two_col TAB_CONTENT with
      | none => rw [h2] at hnav; cases hnav
      | some tab_content =>
        rw [h2] at hnav
        simp only [Option.some_bind] at hnav
        dsimp only
        cases h3 : nav tab_content SECTION_LIST_ITEM with
        | none => rw [h3] at hnav; cases hnav
        | some sli =>
          dsimp only
          exact finishPlaylist_duration two_col _
  · intro first fetch pid limit p hok
    unfold get_playlist at hok
    cases first with
    | error e => cases hok
    | ok response =>
      dsimp only at hok
      split at hok
      · split at hok
        · split at hok
          · split at hok
            · cases hok
            · cases hok
              exact applyLimitAndDuration_duration limit _
          · cases hok
            exact applyLimitAndDuration_duration limit _
        · cases hok
          exact applyLimitAndDuration_duration limit _
      · cases hok
        exact applyLimitAndDuration_duration limit _

/-- Witness for C1's amended theorem: both halves applied at concrete
inputs. -/
theorem claim_C1_amended_witness :
    (parse_playlist_response bareLayoutResponse "PL").duration_seconds
      = some (((parse_playlist_response bareLayoutResponse "PL").tracks.map
          (fun t => t.duration_seconds.getD 0)).sum % 4294967296)
    ∧ (applyLimitAndDuration none (parse_playlist_response Json.null "PL")).duration_seconds
      = some (((applyLimitAndDuration none
            (parse_playlist_response Json.null "PL")).tracks.map
          (fun t => t.duration_seconds.getD 0)).sum % 4294967296) :=
  ⟨claim_C1_amended.1 bareLayoutResponse "PL" (by decide),
   claim_C1_amended.2 (.ok Json.null) (fun _ => .ok Json.null) "PL" none
     (applyLimitAndDuration none (parse_playlist_response Json.null "PL")) rfl⟩

/-! Pagination loop lemmas (claims C3, C4, C6). -/

/-- Fuel adequacy: beyond `maxItems - acc.length` the fuel value does not
change the loop's result, because every continuing iteration appends at
least one track while the accumulator is still below `maxItems`. -/
theorem contLoopF_fuel_eq (fetch : FetchCont) (maxItems : Nat) :
    ∀ (f₁ : Nat) (f₂ : Nat) (tok : Option String) (acc : List PlaylistTrack),
      maxItems - acc.length < f₁ → maxItems - acc.length < f₂ →
      contLoopF fetch maxItems f₁ tok acc = contLoopF fetch maxItems f₂ tok acc := by
  intro f₁
  induction f₁ with
  | zero => intro f₂ tok acc h₁ _; omega
  | succ f ih =>
    intro f₂ tok acc h₁ h₂
    cases f₂ with
    | zero => omega
    | succ g =>
      cases tok with
      | none => rfl
      | some t =>
        show contLoopF fetch maxItems (f + 1) (some t) acc
          = contLoopF fetch maxItems (g + 1) (some t) acc
        simp only [contLoopF]
        by_cases hlen : maxItems ≤ acc.length
        · rw [if_pos hlen, if_pos hlen]
        · rw [if_neg hlen, if_neg hlen]
          cases hfetch : fetch t with
          | error e => rfl
          | ok response =>
            dsimp only
            cases hitems : continuationItems response with
            | none => rfl
            | some j =>
              cases j with
              | arr items =>
                dsimp only
                by_cases htr : parse_playlist_tracks items = []
                · rw [if_pos htr, if_pos htr]
                · rw [if_neg htr, if_neg htr]
                  have hpos : 0 < (parse_playlist_tracks items).length :=
                    List.length_pos.mpr htr
                  apply ih
                  · simp only [List.length_append]; omega
                  · simp only [List.length_append]; omega
              | null => rfl
              | bool b => rfl
              | num n => rfl
              | str s => rfl
              | obj fields => rfl

/-- Every error the loop returns was produced by some fetch. -/
theorem contLoopF_error_from_fetch (fetch : FetchCont) (maxItems : Nat) :
    ∀ (fuel : Nat) (tok : Option String) (acc : List PlaylistTrack) (e : YTError),
      contLoopF fetch maxItems fuel tok acc = .error e →
      ∃ t, fetch t = .error e := by
  intro fuel
  induction fuel with
  | zero =>
    intro tok acc e h
    cases tok <;> cases h
  | succ f ih =>
    intro tok acc e h
    cases tok with
    | none => cases h
    | some t =>
      simp only [contLoopF] at h
      by_cases hlen : maxItems ≤ acc.length
      · rw [if_pos hlen] at h; cases h
      · rw [if_neg hlen] at h
        cases hfetch : fetch t with
        | error e' =>
          rw [hfetch] at h
          cases h
          exact ⟨t, hfetch⟩
        | ok response =>
          rw [hfetch] at h
          dsimp only at h
          cases hitems : continuationItems response with
          | none => rw [hitems] at h; cases h
          | some j =>
            rw [hitems] at h
            cases j with
            | arr items =>
              dsimp only at h
              by_cases htr : parse_playlist_tracks items = []
              · rw [if_pos htr] at h; cases h
              · rw [if_neg htr] at h
                exact ih _ _ _ h
            | null => cases h
            | bool b => cases h
            | num n => cases h
            | str s => cases h
            | obj fields => cases h

/-- An error of `fetch_playlist_continuations` comes from some fetch. -/
theorem fetch_continuations_error_from_fetch (fetch : FetchCont)
    (initialToken : String) (maxItems : Nat) (e : YTError) :
    fetch_playlist_continuations fetch initialToken maxItems = .error e →
    ∃ t, fetch t = .error e := by
  intro h
  unfold fetch_playlist_continuations at h
  cases hloop : contLoopF fetch maxItems (maxItems + 1) (some initialToken) [] with
  | error e' =>
    rw [hloop] at h
    cases h
    exact contLoopF_error_from_fetch fetch maxItems _ _ _ _ hloop
  | ok l => rw [hloop] at h; cases h

/-- C6.  The pagination loop always terminates: the loop's result is
independent of the fuel bound once the fuel exceeds the remaining capacity
`maxItems - acc.length` (each continuing iteration appends at least one
parsed track, or the loop stops), so the `while` loop of the source runs at
most `max_items + 1` iterations; and an iteration whose parsed batch is
empty stops the loop and returns the accumulator even when a next
continuation token is present. -/
theorem claim_C6_termination :
    (∀ (fetch : FetchCont) (maxItems f₁ f₂ : Nat) (tok : Option String)
        (acc : List PlaylistTrack),
      maxItems - acc.length < f₁ → maxItems - acc.length < f₂ →
      contLoopF fetch maxItems f₁ tok acc = contLoopF fetch maxItems f₂ tok acc)
    ∧ (∀ (fetch : FetchCont) (maxItems fuel : Nat) (t : String)
        (acc : List PlaylistTrack) (response : Json) (items : List Json)
        (tok2 : String),
      acc.length < maxItems →
      fetch t = .ok response →
      continuationItems response = some (.arr items) →
      parse_playlist_tracks items = [] →
      nextContinuationToken items = some tok2 →
      contLoopF fetch maxItems (fuel + 1) (some t) acc = .ok acc) := by
  constructor
  · intro fetch maxItems f₁ f₂ tok acc h₁ h₂
    exact contLoopF_fuel_eq fetch maxItems f₁ f₂ tok acc h₁ h₂
  · intro fetch maxItems fuel t acc response items tok2 hlen hfetch hitems htr _
    simp only [contLoopF]
    rw [if_neg (by omega), hfetch]
    dsimp only
    rw [hitems]
    dsimp only
    rw [if_pos htr]

/-- Witness for C6: the fuel-independence at a concrete exhausted state and
the empty-batch stop on a concrete continuation response. -/
theorem claim_C6_termination_witness :
    contLoopF (fun _ => .ok Json.null) 1 2 none [] =
      contLoopF (fun _ => .ok Json.null) 1 3 none []
    ∧ contLoopF (fun _ => .ok emptyBatchResponse) 1 1 (some "T1") [] = .ok [] :=
  ⟨claim_C6_termination.1 (fun _ => .ok Json.null) 1 2 3 none []
      (by decide) (by decide),
   claim_C6_termination.2 (fun _ => .ok emptyBatchResponse) 1 0 "T1" []
      emptyBatchResponse
      [ .obj [("continuationItemRenderer", .obj
        [("continuationEndpoint", .obj [("continuationCommand", .obj
          [("token", .str "T2")])])])] ]
      "T2" (by decide) rfl rfl rfl rfl⟩

/-- C4.  A failing continuation fetch propagates its error immediately:
the iteration that hits the failure returns exactly that error, every error
the loop or `fetch_playlist_continuations` returns originates from a fetch,
the first fetch's failure is the whole call's result, and a `get_playlist`
error is either the initial browse failure or a continuation fetch
failure — an `error` result carries no track list, so no partial
accumulation ever escapes. -/
theorem claim_C4_error_propagation :
    (∀ (fetch : FetchCont) (maxItems fuel : Nat) (t : String)
        (acc : List PlaylistTrack) (e : YTError),
      acc.length < maxItems → fetch t = .error e →
      contLoopF fetch maxItems (fuel + 1) (some t) acc = .error e)
    ∧ (∀ (fetch : FetchCont) (maxItems fuel : Nat) (tok : Option String)
        (acc : List PlaylistTrack) (e : YTError),
      contLoopF fetch maxItems fuel tok acc = .error e →
      ∃ t, fetch t = .error e)
    ∧ (∀ (fetch : FetchCont) (initialToken : String) (maxItems : Nat)
        (e : YTError),
      fetch initialToken = .error e → 0 < maxItems →
      fetch_playlist_continuations fetch initialToken maxItems = .error e)
    ∧ (∀ (first : Except YTError Json) (fetch : FetchCont) (pid : String)
        (limit : Option Nat) (e : YTError),
      get_playlist first fetch pid limit = .error e →
      first = .error e ∨ ∃ t, fetch t = .error e) := by
  refine ⟨?_, ?_, ?_, ?_⟩
  · intro fetch maxItems fuel t acc e hlen hfetch
    simp only [contLoopF]
    rw [if_neg (by omega), hfetch]
  · intro fetch maxItems fuel tok acc e h
    exact contLoopF_error_from_fetch fetch maxItems fuel tok acc e h
  · intro fetch initialToken maxItems e hfetch hpos
    unfold fetch_playlist_continuations
    cases maxItems with
    | zero => omega
    | succ m =>
      have : contLoopF fetch (m + 1) (m + 1 + 1) (some initialToken) []
          = .error e := by
        simp only [contLoopF]
        rw [if_neg (by simp), hfetch]
      rw [this]
      rfl
  · intro first fetch pid limit e h
    unfold get_playlist at h
    cases first with
    | error e' => cases h; exact Or.inl rfl
    | ok response =>
      dsimp only at h
      right
      split at h
      · split at h
        · split at h
          · cases hcont : fetch_playlist_continuations fetch _ _ with
            | error e' =>
              rw [hcont] at h
              cases h
              exact fetch_continuations_error_from_fetch _ _ _ _ hcont
            | ok more => rw [hcont] at h; cases h
          · cases h
        · cases h
      · cases h

/-- Witness for C4: a fetch that always fails makes the loop, the wrapper
and `get_playlist` all return exactly that error. -/
theorem claim_C4_error_propagation_witness :
    contLoopF (fun _ => .error (.server 500 "boom")) 2 1 (some "T1") []
      = .error (.server 500 "boom")
    ∧ (∃ t, (fun (_ : String) => Except.error (α := Json) (YTError.server 500 "boom")) t
        = .error (.server 500 "boom"))
    ∧ fetch_playlist_continuations (fun _ => .error (.server 500 "boom")) "T1" 2
      = .error (.server 500 "boom")
    ∧ ((Except.error (.server 500 "boom") : Except YTError Json)
          = .error (.server 500 "boom")
        ∨ ∃ t, (fun (_ : String) => Except.error (α := Json) (YTError.server 500 "boom")) t
            = .error (.server 500 "boom")) := by
  refine ⟨?_, ?_, ?_, ?_⟩
  · exact claim_C4_error_propagation.1 (fun _ => .error (.server 500 "boom"))
      2 0 "T1" [] (.server 500 "boom") (by decide) rfl
  · exact claim_C4_error_propagation.2.1 (fun _ => .error (.server 500 "boom"))
      2 1 (some "T1") [] (.server 500 "boom")
      (claim_C4_error_propagation.1 (fun _ => .error (.server 500 "boom"))
        2 0 "T1" [] (.server 500 "boom") (by decide) rfl)
  · exact claim_C4_error_propagation.2.2.1 (fun _ => .error (.server 500 "boom"))
      "T1" 2 (.server 500 "boom") rfl (by decide)
  · exact claim_C4_error_propagation.2.2.2 (.error (.server 500 "boom"))
      (fun _ => .error (.server 500 "boom")) "PL" (some 0) (.server 500 "boom")
      rfl

/-- The final `get_playlist` steps keep at most `lim` tracks when a limit
was requested. -/
theorem applyLimitAndDuration_length (lim : Nat) (p : Playlist) :
    (applyLimitAndDuration (some lim) p).tracks.length ≤ lim := by
  unfold applyLimitAndDuration
  simp

/-- C3.  `fetch_playlist_continuations` returns at most `max_items` tracks
(the accumulated list is truncated, even when the last page overshoots);
`get_playlist` returns at most the requested maximum of tracks; and when
the first page already holds at least the requested maximum the result does
not depend on the continuation transport at all — no continuation request
is issued. -/
theorem claim_C3_limit :
    (∀ (fetch : FetchCont) (initialToken : String) (maxItems : Nat)
        (l : List PlaylistTrack),
      fetch_playlist_continuations fetch initialToken maxItems = .ok l →
      l.length ≤ maxItems)
    ∧ (∀ (first : Except YTError Json) (fetch : FetchCont) (pid : String)
        (lim : Nat) (p : Playlist),
      get_playlist first fetch pid (some lim) = .ok p →
      p.tracks.length ≤ lim)
    ∧ (∀ (response : Json) (fetch₁ fetch₂ : FetchCont) (pid : String)
        (limit : Option Nat),
      limit.getD 5000 ≤ (parse_playlist_response response pid).tracks.length →
      get_playlist (.ok response) fetch₁ pid limit
        = get_playlist (.ok response) fetch₂ pid limit) := by
  refine ⟨?_, ?_, ?_⟩
  · intro fetch initialToken maxItems l h
    unfold fetch_playlist_continuations at h
    cases hloop : contLoopF fetch maxItems (maxItems + 1) (some initialToken) [] with
    | error e => rw [hloop] at h; cases h
    | ok l' =>
      rw [hloop] at h
      cases h
      simp
  · intro first fetch pid lim p h
    unfold get_playlist at h
    cases first with
    | error e => cases h
    | ok response =>
      dsimp only at h
      split at h
      · split at h
        · split at h
          · split at h
            · cases h
            · cases h
              exact applyLimitAndDuration_length lim _
          · cases h
            exact applyLimitAndDuration_length lim _
        · cases h
          exact applyLimitAndDuration_length lim _
      · cases h
        exact applyLimitAndDuration_length lim _
  · intro response fetch₁ fetch₂ pid limit hfull
    unfold get_playlist
    dsimp only
    split
    · rw [if_neg (by omega), if_neg (by omega)]
    · rfl

/-- Witness for C3: a concrete run of each conjunct. -/
theorem claim_C3_limit_witness :
    ([] : List PlaylistTrack).length ≤ 1
    ∧ (applyLimitAndDuration (some 0)
        (parse_playlist_response Json.null "PL")).tracks.length ≤ 0
    ∧ get_playlist (.ok Json.null) (fun _ => .ok Json.null) "PL" (some 0)
        = get_playlist (.ok Json.null) (fun _ => .error (.server 500 "x")) "PL"
            (some 0) := by
  refine ⟨?_, ?_, ?_⟩
  · exact claim_C3_limit.1 (fun _ => .ok Json.null) "T1" 1 [] rfl
  · exact claim_C3_limit.2.1 (.ok Json.null) (fun _ => .ok Json.null) "PL" 0
      (applyLimitAndDuration (some 0) (parse_playlist_response Json.null "PL"))
      rfl
  · exact claim_C3_limit.2.2 Json.null (fun _ => .ok Json.null)
      (fun _ => .error (.server 500 "x")) "PL" (some 0) (by decide)

end YTM
